import Mathlib

/-!
# Verification of the FPL analyser core (src/app.py)

Shallow embedding of the pure core of the analyser:

* `calculate_player_score`   (app.py, lines 70-81)
* `rate_team`                (app.py, lines 83-108)
* `get_player_fixture_difficulty` (app.py, lines 110-121)
* `suggest_replacements`     (app.py, lines 123-169)
* `suggest_chips`            (app.py, lines 171-216)
* `suggest_wildcard_team`    (app.py, lines 218-297), split here into the
  greedy squad construction (`wildcardState`) and the lineup formatting
  (`buildLineupWC`); the analogous post-transfer lineup formatting inside
  `analyze_team` (lines 437-461) is `buildLineupFT`.

Modelling conventions:

* Python floats are modelled as exact rationals `ℚ`.  All quantities involved
  (prices in integer tenths, decimal form / points-per-game values, the fixed
  modifier table) are short decimals, and every comparison made by the code
  has slack far larger than double rounding error, so the `ℚ` model is
  behaviourally faithful.
* Python's stable `list.sort(key=..., reverse=...)` is modelled with
  `List.insertionSort`, which is also stable; any two stable sorts by the
  same key agree, so this is observationally the same list.
* `element_type` (1 GKP, 2 DEF, 3 MID, 4 FWD) is the four-valued `Pos`,
  matching the data model (the code indexes quota dicts keyed by exactly
  these four values).
* Presentation-only fields of the Python dicts (photo / badge URLs, the
  rationale strings interpolated into suggestions and chip recommendations)
  carry no logic and are omitted from the records.
* The in-place mutation that `suggest_replacements` performs on its first
  argument is made explicit: the Lean function returns the final state of
  that list alongside the suggestions.
* `float(...)` coercion of possibly non-numeric dynamic values is modelled
  separately on `RawPlayer` (values `PyVal`), where `none` is a raised
  exception; the rest of the development works over players whose stats are
  numeric-or-absent, which is what the upstream data source provides.
-/

/-- The four FPL positions; `element_type` 1, 2, 3, 4 in the source data. -/
inductive Pos where
  | GKP
  | DEF
  | MID
  | FWD
deriving DecidableEq, Repr

/-- A player record, keeping exactly the fields the core logic reads:
`id`, `web_name`, `team`, `element_type`, `now_cost` (price in integer
tenths), `form` and `points_per_game` (absent ↦ `none`). -/
structure Player where
  id : ℤ
  web_name : String
  team : ℤ
  element_type : Pos
  now_cost : ℕ
  form : Option ℚ
  points_per_game : Option ℚ
deriving DecidableEq, Repr

/-- A fixture: gameweek (`event`, possibly absent/null), the two club ids and
the two per-side difficulty ratings. -/
structure Fixture where
  event : Option ℤ
  team_h : ℤ
  team_a : ℤ
  team_h_difficulty : ℤ
  team_a_difficulty : ℤ
deriving DecidableEq, Repr

/-- Difficulty-to-modifier table of `calculate_player_score`
(`{1: 1.2, 2: 1.1, 3: 1.0, 4: 0.9, 5: 0.8}`, default `1.0`). -/
def difficulty_modifier (d : ℤ) : ℚ :=
  if d = 1 then 1.2
  else if d = 2 then 1.1
  else if d = 3 then 1.0
  else if d = 4 then 0.9
  else if d = 5 then 0.8
  else 1.0

/-- app.py lines 70-81: `(form * 0.6 + points_per_game * 0.4) * modifier`,
absent stats defaulting to `0.0` via `player.get(..., 0.0)`. -/
def calculate_player_score (p : Player) (fixture_difficulty : ℤ) : ℚ :=
  ((p.form.getD 0) * 0.6 + (p.points_per_game.getD 0) * 0.4)
    * difficulty_modifier fixture_difficulty

/-- A dynamic value fed to Python's `float(...)`: either one `float` accepts
(a number or numeric string), carrying its value, or one it raises on. -/
inductive PyVal where
  | num (q : ℚ)
  | nonNumeric
deriving DecidableEq, Repr

/-- Python's `float(...)`: `none` models a raised `ValueError`/`TypeError`. -/
def pyFloat : PyVal → Option ℚ
  | PyVal.num q => some q
  | PyVal.nonNumeric => none

/-- A player record as the dynamic JSON actually delivers it: the two stat
fields may be absent or hold a non-numeric value. -/
structure RawPlayer where
  form : Option PyVal
  points_per_game : Option PyVal
deriving DecidableEq, Repr

/-- `calculate_player_score` on raw dynamic data:
`float(player.get('form', 0.0)) * 0.6 + float(player.get('points_per_game', 0.0)) * 0.4`,
then the difficulty modifier; `none` models the call raising. -/
def calculate_player_score_raw (p : RawPlayer) (fixture_difficulty : ℤ) : Option ℚ :=
  match pyFloat (p.form.getD (PyVal.num 0)),
        pyFloat (p.points_per_game.getD (PyVal.num 0)) with
  | some f, some g => some ((f * 0.6 + g * 0.4) * difficulty_modifier fixture_difficulty)
  | _, _ => none

/-- Whether an optional dynamic field is absent or numeric (so `float` of
`.get(field, 0.0)` succeeds). -/
def numericField : Option PyVal → Bool
  | none => true
  | some (PyVal.num _) => true
  | some PyVal.nonNumeric => false

/-- The numeric value an absent-or-numeric dynamic field contributes. -/
def fieldValue : Option PyVal → ℚ
  | some (PyVal.num q) => q
  | _ => 0

/-- app.py lines 110-121: scan the fixture list for the gameweek's fixture
involving the club; neither side matching keeps scanning. -/
def scanFixtures (tid g : ℤ) : List Fixture → ℤ
  | [] => 3
  | f :: rest =>
    if f.event = some g then
      if f.team_h = tid then f.team_h_difficulty
      else if f.team_a = tid then f.team_a_difficulty
      else scanFixtures tid g rest
    else scanFixtures tid g rest

/-- app.py lines 110-121: `get_player_fixture_difficulty`.  The guard
`if not all_fixtures or not gameweek_id` treats an absent (`None`) or zero
gameweek id and an empty fixture list as "data unavailable" (neutral 3). -/
def get_player_fixture_difficulty (tid : ℤ) (gw : Option ℤ) (fixtures : List Fixture) : ℤ :=
  match gw with
  | none => 3
  | some g => if fixtures = [] ∨ g = 0 then 3 else scanFixtures tid g fixtures

/-- Python's banker's `round` on an exact rational: nearest integer, halves
to the even neighbour. -/
def pyRound (q : ℚ) : ℤ :=
  if q - ⌊q⌋ < 1/2 then ⌊q⌋
  else if 1/2 < q - ⌊q⌋ then ⌊q⌋ + 1
  else if ⌊q⌋ % 2 = 0 then ⌊q⌋ else ⌊q⌋ + 1

/-- The summation loop of `rate_team` (app.py lines 89-96): each starter's
fixture-adjusted score, doubled when the player's id equals `captain_id`. -/
def teamTotalScore (starting : List (Player × ℤ)) (captain_id : ℤ) : ℚ :=
  starting.foldl
    (fun acc pd =>
      acc + (if pd.1.id = captain_id
             then calculate_player_score pd.1 pd.2 * 2
             else calculate_player_score pd.1 pd.2))
    0

/-- app.py lines 83-108: `rate_team`.  Empty input short-circuits to 0; the
reference maximum is the fixed constant `10 * 8.0 + 1 * 8.0 * 2 = 96.0`
(the dead `if max_possible_score == 0` guard is kept). -/
def rate_team (starting : List (Player × ℤ)) (captain_id : ℤ) : ℤ :=
  if starting = [] then 0
  else
    let total := teamTotalScore starting captain_id
    let max_possible_score : ℚ := 10 * 8.0 + 1 * 8.0 * 2
    if max_possible_score = 0 then 0
    else pyRound (min 100 ((total / max_possible_score) * 100))

/-- Python's stable `list.sort(key=k)` (ascending). -/
def pySortAscBy {α : Type} (key : α → ℚ) (l : List α) : List α :=
  List.insertionSort (fun a b => key a ≤ key b) l

/-- Python's stable `list.sort(key=k, reverse=True)` (descending). -/
def pySortDescBy {α : Type} (key : α → ℚ) (l : List α) : List α :=
  List.insertionSort (fun a b => key b ≤ key a) l

/-- A transfer suggestion (app.py lines 157-167).  The rationale string and
the photo / badge URL fields are presentation-only and omitted; `out_name`
and `in_name` are the stored `web_name`s, `in_player` is
`in_player_object`, and `score_gain` is the stored score delta. -/
structure Suggestion where
  out_name : String
  in_name : String
  in_player : Player
  score_gain : ℚ
deriving DecidableEq, Repr

/-- The set `team_player_ids = {p['id'] for p, d in team_players_with_difficulty}`
(app.py line 132), as the list of ids. -/
def ownedIdsOf (l : List (Player × ℤ)) : List ℤ :=
  l.map (fun pd => pd.1.id)

/-- The inner candidate scan of `suggest_replacements` (app.py lines 141-148):
pool members with the same position, not already owned, priced at most the
outgoing player, and strictly outscoring them, paired with their
fixture-adjusted score, in pool iteration order. -/
def candidatesFor (ownedIds : List ℤ) (pool : List Player) (fixtures : List Fixture)
    (gw : Option ℤ) (P : Player) (d : ℤ) : List (Player × ℚ) :=
  pool.filterMap fun c =>
    if c.element_type = P.element_type ∧ c.id ∉ ownedIds then
      if c.now_cost ≤ P.now_cost ∧
          calculate_player_score P d <
            calculate_player_score c (get_player_fixture_difficulty c.team gw fixtures)
      then some (c, calculate_player_score c (get_player_fixture_difficulty c.team gw fixtures))
      else none
    else none

/-- One iteration of the outer loop of `suggest_replacements` (app.py lines
135-167): sort the candidates by score descending (stable, so first-seen
wins a tie) and take the head, if any. -/
def suggestFor (ownedIds : List ℤ) (pool : List Player) (fixtures : List Fixture)
    (gw : Option ℤ) (pd : Player × ℤ) : Option Suggestion :=
  match pySortDescBy (fun c => c.2) (candidatesFor ownedIds pool fixtures gw pd.1 pd.2) with
  | [] => none
  | (best, bs) :: _ =>
    some ⟨pd.1.web_name, best.web_name, best, bs - calculate_player_score pd.1 pd.2⟩

/-- app.py lines 123-169: `suggest_replacements`.  The Python function sorts
`team_players_with_difficulty` in place (line 129) before iterating; the
mutation is made explicit here by returning the final state of that input
list as the first component of the result. -/
def suggest_replacements (team_players : List (Player × ℤ)) (pool : List Player)
    (fixtures : List Fixture) (gw : Option ℤ) :
    List (Player × ℤ) × List Suggestion :=
  if team_players = [] then (team_players, [])
  else
    (pySortAscBy (fun pd => calculate_player_score pd.1 pd.2) team_players,
     (pySortAscBy (fun pd => calculate_player_score pd.1 pd.2) team_players).filterMap
       (suggestFor
         (ownedIdsOf (pySortAscBy (fun pd => calculate_player_score pd.1 pd.2) team_players))
         pool fixtures gw))

/-- The four chip kinds.  The recommendation dicts of `suggest_chips` carry
a kind plus a presentation-only rationale string; only the kind is kept. -/
inductive ChipKind where
  | benchBoost
  | tripleCaptain
  | wildcard
  | freeHit
deriving DecidableEq, Repr

/-- The `used_chips` record: which chips the request marks as already used
(`used_chips.get(key)` falsy means available). -/
structure UsedChips where
  benchBoost : Bool
  tripleCaptain : Bool
  wildcard : Bool
  freeHit : Bool
deriving DecidableEq, Repr

/-- CPython's `max(xs, key=k)` over `x :: xs`: the first element attaining
the maximal key (later elements replace only on strictly greater key). -/
def pyMaxBy {α : Type} (key : α → ℚ) (x : α) (xs : List α) : α :=
  xs.foldl (fun acc y => if key acc < key y then y else acc) x

/-- The Triple Captain block of `suggest_chips` (app.py lines 187-197)
minus the used-chip guard: empty starters recommend nothing, otherwise the
Python `max(starting, key=score)` candidate must score above 8.5. -/
def tcSegment (starting : List (Player × ℤ)) : List ChipKind :=
  match starting with
  | [] => []
  | x :: xs =>
    if 8.5 < calculate_player_score
        (pyMaxBy (fun pd => calculate_player_score pd.1 pd.2) x xs).1
        (pyMaxBy (fun pd => calculate_player_score pd.1 pd.2) x xs).2
    then [ChipKind.tripleCaptain] else []

/-- The Free Hit block of `suggest_chips` (app.py lines 208-215) minus the
used-chip guard: `other_suggestions and other_suggestions[0].get('score_gain', 0) > 3.0`. -/
def fhSegment (other_suggestions : List Suggestion) : List ChipKind :=
  match other_suggestions with
  | [] => []
  | s :: _ => if 3.0 < s.score_gain then [ChipKind.freeHit] else []

/-- app.py lines 171-216: `suggest_chips`.  Four independent blocks, each
appending at most one recommendation. -/
def suggest_chips (starting bench : List (Player × ℤ)) (other_suggestions : List Suggestion)
    (used_chips : UsedChips) : List ChipKind :=
  (if ¬used_chips.benchBoost ∧ bench ≠ [] ∧
      15 < (bench.map fun pd => calculate_player_score pd.1 pd.2).sum
   then [ChipKind.benchBoost] else [])
  ++ (if used_chips.tripleCaptain then [] else tcSegment starting)
  ++ (if ¬used_chips.wildcard ∧ 5 ≤ other_suggestions.length
      then [ChipKind.wildcard] else [])
  ++ (if used_chips.freeHit then [] else fhSegment other_suggestions)

/-- A pool player annotated with its fixture-adjusted score
(`{'player': p, 'score': score}`, app.py line 225). -/
structure ScoredP where
  player : Player
  score : ℚ
deriving DecidableEq, Repr

/-- app.py lines 220-228: score every pool player against the next
gameweek's difficulty and sort descending by score. -/
def scoredPoolSorted (pool : List Player) (fixtures : List Fixture) (gw : Option ℤ) :
    List ScoredP :=
  pySortDescBy ScoredP.score
    (pool.map fun p =>
      ⟨p, calculate_player_score p (get_player_fixture_difficulty p.team gw fixtures)⟩)

/-- The loop state of the greedy wildcard scan (app.py lines 231-236):
the squad built so far, remaining budget, and the position / club tallies
(`pos_counts`, `team_counts`). -/
structure WState where
  squad : List ScoredP
  budget : ℚ
  posCounts : Pos → ℕ
  teamCounts : ℤ → ℕ

/-- The position quotas `pos_limits = {1: 2, 2: 5, 3: 5, 4: 3}`. -/
def posLimit : Pos → ℕ
  | Pos.GKP => 2
  | Pos.DEF => 5
  | Pos.MID => 5
  | Pos.FWD => 3

/-- Initial greedy state: empty squad, budget 100.0, zero tallies. -/
def initWState : WState := ⟨[], 100, fun _ => 0, fun _ => 0⟩

/-- One iteration of the greedy scan (app.py lines 238-255): once the squad
holds 15 the loop has broken (state frozen); a club at its 3-player limit is
skipped; otherwise the player is admitted iff the position quota is open and
the remaining budget covers `now_cost / 10.0`. -/
def wcStep (st : WState) (pd : ScoredP) : WState :=
  if st.squad.length = 15 then st
  else if 3 ≤ st.teamCounts pd.player.team then st
  else if st.posCounts pd.player.element_type < posLimit pd.player.element_type ∧
      (pd.player.now_cost : ℚ) / 10 ≤ st.budget then
    ⟨st.squad ++ [pd], st.budget - (pd.player.now_cost : ℚ) / 10,
     fun q => if q = pd.player.element_type then st.posCounts q + 1 else st.posCounts q,
     fun t => if t = pd.player.team then st.teamCounts t + 1 else st.teamCounts t⟩
  else st

/-- The greedy scan of `suggest_wildcard_team` (app.py lines 218-255), run
to completion over the score-sorted pool. -/
def wildcardState (pool : List Player) (fixtures : List Fixture) (gw : Option ℤ) : WState :=
  (scoredPoolSorted pool fixtures gw).foldl wcStep initWState

/-- The (at most 15) players the greedy wildcard scan admits. -/
def wildcardSquad (pool : List Player) (fixtures : List Fixture) (gw : Option ℤ) :
    List ScoredP :=
  (wildcardState pool fixtures gw).squad

/-- Roles in a formatted lineup. -/
inductive Role where
  | Captain
  | ViceCaptain
  | Starter
  | Sub
deriving DecidableEq, Repr

/-- A lineup entry `{'player': ..., 'role': ...}`. -/
structure RoleP where
  player : Player
  role : Role
deriving DecidableEq, Repr

/-- app.py lines 289-293: enumerate the score-sorted starting XI, giving
index 0 Captain, index 1 Vice-Captain, the rest Starter. -/
def assignRoles (xs : List ScoredP) : List RoleP :=
  xs.enum.map fun ip =>
    ⟨ip.2.player, if ip.1 = 0 then Role.Captain
                  else if ip.1 = 1 then Role.ViceCaptain
                  else Role.Starter⟩

/-- The lineup formatter of the wildcard path (app.py lines 257-297): best
keeper starts, second keeper benched (any further keepers are dropped by
the code), top 3 outfielders start unconditionally, next-best outfielders
fill the XI to 11, the rest are benched; the XI is then score-sorted and
captained. -/
def buildLineupWC (squad : List ScoredP) : List RoleP :=
  let gkp := pySortDescBy ScoredP.score (squad.filter fun p => p.player.element_type = Pos.GKP)
  let defs := pySortDescBy ScoredP.score (squad.filter fun p => p.player.element_type = Pos.DEF)
  let mids := pySortDescBy ScoredP.score (squad.filter fun p => p.player.element_type = Pos.MID)
  let fwds := pySortDescBy ScoredP.score (squad.filter fun p => p.player.element_type = Pos.FWD)
  let startGK := gkp.take 1
  let benchGK := (gkp.drop 1).take 1
  let outfield := pySortDescBy ScoredP.score (defs ++ mids ++ fwds)
  let startingHead := startGK ++ outfield.take 3
  let needed := 11 - startingHead.length
  let starting_xi := startingHead ++ (outfield.drop 3).take needed
  let bench := benchGK ++ (outfield.drop 3).drop needed
  assignRoles (pySortDescBy ScoredP.score starting_xi)
    ++ bench.map (fun p => ⟨p.player, Role.Sub⟩)

/-- app.py lines 218-297: `suggest_wildcard_team` — the greedy squad fed to
the wildcard lineup formatter. -/
def suggest_wildcard_team (pool : List Player) (fixtures : List Fixture) (gw : Option ℤ) :
    List RoleP :=
  buildLineupWC (wildcardSquad pool fixtures gw)

/-- The post-transfer lineup formatter inside `analyze_team` (app.py lines
430-461): best keeper plus top 3 defenders, top 2 midfielders and top 1
forward start, the best 4 remaining outfielders complete the XI, remaining
keepers and outfielders are benched. -/
def buildLineupFT (squad : List ScoredP) : List RoleP :=
  let gkp := pySortDescBy ScoredP.score (squad.filter fun p => p.player.element_type = Pos.GKP)
  let defs := pySortDescBy ScoredP.score (squad.filter fun p => p.player.element_type = Pos.DEF)
  let mids := pySortDescBy ScoredP.score (squad.filter fun p => p.player.element_type = Pos.MID)
  let fwds := pySortDescBy ScoredP.score (squad.filter fun p => p.player.element_type = Pos.FWD)
  let startGK := gkp.take 1
  let gkpRest := gkp.drop 1
  let outfield := pySortDescBy ScoredP.score (defs.drop 3 ++ mids.drop 2 ++ fwds.drop 1)
  let starting_xi := startGK ++ defs.take 3 ++ mids.take 2 ++ fwds.take 1 ++ outfield.take 4
  let bench := gkpRest ++ pySortDescBy ScoredP.score (outfield.drop 4)
  assignRoles (pySortDescBy ScoredP.score starting_xi)
    ++ bench.map (fun p => ⟨p.player, Role.Sub⟩)

/-- Total squad price in currency units (`now_cost / 10.0` summed). -/
def totalPrice (l : List ScoredP) : ℚ :=
  (l.map fun pd => (pd.player.now_cost : ℚ) / 10).sum

/-- How many squad members belong to club `t`. -/
def clubCount (l : List ScoredP) (t : ℤ) : ℕ :=
  l.countP fun pd => pd.player.team = t

/-- How many squad members play position `q`. -/
def posCount (l : List ScoredP) (q : Pos) : ℕ :=
  l.countP fun pd => pd.player.element_type = q

/-- How many lineup entries carry role `r`. -/
def roleCount (l : List RoleP) (r : Role) : ℕ :=
  l.countP fun e => e.role = r

/-- How many lineup entries are starters (role other than `Sub`). -/
def starterCount (l : List RoleP) : ℕ :=
  l.countP fun e => e.role ≠ Role.Sub

/-- Loop invariant of the greedy wildcard scan: the remaining budget and
the two tally dicts agree with the squad built so far, the budget is never
negative, and the club / position tallies respect their limits. -/
def WInv (st : WState) : Prop :=
  st.budget + totalPrice st.squad = 100 ∧
  0 ≤ st.budget ∧
  (∀ t, st.teamCounts t = clubCount st.squad t) ∧
  (∀ t, st.teamCounts t ≤ 3) ∧
  (∀ q, st.posCounts q = posCount st.squad q) ∧
  (∀ q, st.posCounts q ≤ posLimit q)

/-- A test player: id `i`, club `t`, position `pos`, price 4.0, form and
points-per-game both 1.0 (score 1.0 at neutral difficulty). -/
def mkTestPlayer (i : ℕ) (pos : Pos) (t : ℤ) : Player :=
  ⟨i, "P", t, pos, 40, some 1, some 1⟩

/-- A 15-player pool with the exact wildcard quotas (2 GKP, 5 DEF, 5 MID,
3 FWD) spread over five clubs, three players each, 4.0 apiece. -/
def testPool : List Player :=
  [mkTestPlayer 1 Pos.GKP 1, mkTestPlayer 2 Pos.GKP 2,
   mkTestPlayer 3 Pos.DEF 3, mkTestPlayer 4 Pos.DEF 4, mkTestPlayer 5 Pos.DEF 5,
   mkTestPlayer 6 Pos.DEF 1, mkTestPlayer 7 Pos.DEF 2,
   mkTestPlayer 8 Pos.MID 3, mkTestPlayer 9 Pos.MID 4, mkTestPlayer 10 Pos.MID 5,
   mkTestPlayer 11 Pos.MID 1, mkTestPlayer 12 Pos.MID 2,
   mkTestPlayer 13 Pos.FWD 3, mkTestPlayer 14 Pos.FWD 4, mkTestPlayer 15 Pos.FWD 5]

/-- The same 15 players as already-scored entries (score 1.0 each). -/
def testSquadScored : List ScoredP :=
  testPool.map fun p => ⟨p, 1⟩

/-- A scored test player for lineup-formatter inputs. -/
def mkTestScored (i : ℕ) (pos : Pos) : ScoredP :=
  ⟨⟨i, "P", i, pos, 40, some 1, some 1⟩, 1⟩

/-- A 15-player scored pool consisting entirely of keepers. -/
def keeperSquad15 : List ScoredP :=
  [mkTestScored 1 Pos.GKP, mkTestScored 2 Pos.GKP, mkTestScored 3 Pos.GKP,
   mkTestScored 4 Pos.GKP, mkTestScored 5 Pos.GKP, mkTestScored 6 Pos.GKP,
   mkTestScored 7 Pos.GKP, mkTestScored 8 Pos.GKP, mkTestScored 9 Pos.GKP,
   mkTestScored 10 Pos.GKP, mkTestScored 11 Pos.GKP, mkTestScored 12 Pos.GKP,
   mkTestScored 13 Pos.GKP, mkTestScored 14 Pos.GKP, mkTestScored 15 Pos.GKP]

/-- A 16-player scored pool: one keeper and fifteen defenders. -/
def bigSquad16 : List ScoredP :=
  [mkTestScored 1 Pos.GKP, mkTestScored 2 Pos.DEF, mkTestScored 3 Pos.DEF,
   mkTestScored 4 Pos.DEF, mkTestScored 5 Pos.DEF, mkTestScored 6 Pos.DEF,
   mkTestScored 7 Pos.DEF, mkTestScored 8 Pos.DEF, mkTestScored 9 Pos.DEF,
   mkTestScored 10 Pos.DEF, mkTestScored 11 Pos.DEF, mkTestScored 12 Pos.DEF,
   mkTestScored 13 Pos.DEF, mkTestScored 14 Pos.DEF, mkTestScored 15 Pos.DEF,
   mkTestScored 16 Pos.DEF]

/-- Outgoing player for the transfer-engine witness: defender, price 5.0,
score 1.0 at neutral difficulty. -/
def pOutW : Player := ⟨1, "Out", 1, Pos.DEF, 50, some 1, some 1⟩

/-- Incoming candidate for the transfer-engine witness: defender, price 4.5,
score 5.0 at neutral difficulty. -/
def pInW : Player := ⟨2, "In", 2, Pos.DEF, 45, some 5, some 5⟩

/-- A high-scoring owned player (score 5.0). -/
def pHi : Player := ⟨1, "H", 1, Pos.MID, 40, some 5, some 5⟩

/-- A low-scoring owned player (score 1.0). -/
def pLo : Player := ⟨2, "L", 1, Pos.MID, 40, some 1, some 1⟩

/-- A starter with negative form (score -60.0 at neutral difficulty). -/
def pNeg : Player := ⟨5, "N", 1, Pos.MID, 40, some (-100), some 0⟩

/-- A player with zero form and points-per-game (score 0 at any difficulty). -/
def pZero : Player := ⟨6, "Z", 1, Pos.MID, 40, some 0, some 0⟩

/-- The captained starter of the spec's rating scenario (score 8.0). -/
def pCap : Player := ⟨1, "C", 1, Pos.MID, 40, some 8, some 8⟩

/-- A raw player whose `form` holds a non-numeric value. -/
def badRaw : RawPlayer := ⟨some PyVal.nonNumeric, some (PyVal.num 0)⟩

/-- A raw player with numeric `form` and absent `points_per_game`. -/
def goodRaw : RawPlayer := ⟨some (PyVal.num 2), none⟩

/-! ## Helper lemmas -/

theorem difficulty_modifier_pos (d : ℤ) : 0 < difficulty_modifier d := by
  unfold difficulty_modifier
  split_ifs <;> norm_num

theorem pyRound_nonneg (q : ℚ) (h : 0 ≤ q) : 0 ≤ pyRound q := by
  unfold pyRound
  have h0 : (0 : ℤ) ≤ ⌊q⌋ := Int.floor_nonneg.mpr h
  split_ifs <;> omega

theorem pyRound_le_hundred (q : ℚ) (h : q ≤ 100) : pyRound q ≤ 100 := by
  unfold pyRound
  have h1 : ⌊q⌋ ≤ 100 := by
    have h2 : ⌊q⌋ ≤ ⌊(100 : ℚ)⌋ := Int.floor_le_floor h
    simpa using h2
  have hfl : (⌊q⌋ : ℚ) ≤ q := Int.floor_le q
  split_ifs with hr1 hr2 hr3
  · exact h1
  · have hlt : ⌊q⌋ < 100 := by
      by_contra hc
      push_neg at hc
      have h100 : (100 : ℚ) ≤ (⌊q⌋ : ℚ) := by exact_mod_cast hc
      linarith
    omega
  · exact h1
  · have heq : q - (⌊q⌋ : ℚ) = 1/2 := le_antisymm (not_lt.mp hr2) (not_lt.mp hr1)
    have hlt : ⌊q⌋ < 100 := by
      by_contra hc
      push_neg at hc
      have h100 : (100 : ℚ) ≤ (⌊q⌋ : ℚ) := by exact_mod_cast hc
      linarith
    omega

theorem teamTotalScore_nonneg (l : List (Player × ℤ)) (c : ℤ)
    (h : ∀ pd ∈ l, 0 ≤ calculate_player_score pd.1 pd.2) :
    0 ≤ teamTotalScore l c := by
  unfold teamTotalScore
  suffices H : ∀ (l : List (Player × ℤ)) (acc : ℚ), 0 ≤ acc →
      (∀ pd ∈ l, 0 ≤ calculate_player_score pd.1 pd.2) →
      0 ≤ l.foldl
        (fun acc pd =>
          acc + (if pd.1.id = c
                 then calculate_player_score pd.1 pd.2 * 2
                 else calculate_player_score pd.1 pd.2)) acc by
    exact H l 0 le_rfl h
  intro l
  induction l with
  | nil => intro acc hacc _; simpa using hacc
  | cons x xs ih =>
    intro acc hacc hl
    have hx : 0 ≤ calculate_player_score x.1 x.2 := hl x (List.mem_cons_self x xs)
    have hxs : ∀ pd ∈ xs, 0 ≤ calculate_player_score pd.1 pd.2 :=
      fun pd hpd => hl pd (List.mem_cons_of_mem x hpd)
    have hacc2 : 0 ≤ acc + (if x.1.id = c
        then calculate_player_score x.1 x.2 * 2
        else calculate_player_score x.1 x.2) := by
      split_ifs <;> linarith
    simpa using ih _ hacc2 hxs

/-! ## C3: the rating formula -/

/-- C3: `rate_team` sums each starter's fixture-adjusted score, doubling
exactly the entries whose player id equals `captain_id`, and returns
`round(min(100, 100 * total / 96.0))` with the fixed reference maximum 96.0;
the empty list yields 0 with no division by zero, and a single captained
starter with score 8.0 yields rating 17. -/
theorem C3_rate_team_formula :
    (∀ (starting : List (Player × ℤ)) (captain_id : ℤ),
      rate_team starting captain_id =
        pyRound (min 100 (100 * teamTotalScore starting captain_id / 96))) ∧
    (∀ captain_id : ℤ, rate_team [] captain_id = 0) ∧
    rate_team [(pCap, 3)] 1 = 17 := by
  refine ⟨?_, ?_, ?_⟩
  · intro starting captain_id
    by_cases hs : starting = []
    · subst hs
      have ht : teamTotalScore [] captain_id = 0 := rfl
      rw [ht]
      have : pyRound (min 100 (100 * 0 / 96 : ℚ)) = 0 := by
        norm_num [pyRound]
      simpa [rate_team] using this.symm
    · rw [rate_team, if_neg hs, if_neg (by norm_num)]
      have harg : (teamTotalScore starting captain_id / (10 * 8.0 + 1 * 8.0 * 2)) * 100 =
          100 * teamTotalScore starting captain_id / 96 := by
        norm_num
        ring
      rw [harg]
  · intro c; rfl
  · with_unfolding_all decide

/-! ## C6: rating bounds -/

/-- C6 counterexample: the rating is not clamped to `[0, 100]` for negative
scores — a single uncaptained starter with form `-100` rates `-62`. -/
theorem C6_counterexample : rate_team [(pNeg, 3)] 99 < 0 := by
  with_unfolding_all decide

/-- C6 amended: the rating never exceeds 100 and the empty list rates 0;
when every starter's fixture-adjusted score is non-negative (the spec's
"data source never produces negative form/ppg" regime) the rating lies in
`[0, 100]`.  With a negative total score the rating can be negative: the
code applies `min 100` but no lower clamp. -/
theorem C6_amended :
    (∀ (starting : List (Player × ℤ)) (captain_id : ℤ),
      rate_team starting captain_id ≤ 100) ∧
    (∀ captain_id : ℤ, rate_team [] captain_id = 0) ∧
    (∀ (starting : List (Player × ℤ)) (captain_id : ℤ),
      (∀ pd ∈ starting, 0 ≤ calculate_player_score pd.1 pd.2) →
      0 ≤ rate_team starting captain_id ∧ rate_team starting captain_id ≤ 100) := by
  have hub : ∀ (starting : List (Player × ℤ)) (captain_id : ℤ),
      rate_team starting captain_id ≤ 100 := by
    intro starting captain_id
    by_cases hs : starting = []
    · subst hs; norm_num [rate_team]
    · rw [rate_team, if_neg hs, if_neg (by norm_num)]
      exact pyRound_le_hundred _ (min_le_left _ _)
  refine ⟨hub, fun c => rfl, ?_⟩
  intro starting captain_id h
  refine ⟨?_, hub starting captain_id⟩
  by_cases hs : starting = []
  · subst hs; norm_num [rate_team]
  · rw [rate_team, if_neg hs, if_neg (by norm_num)]
    apply pyRound_nonneg
    have htot : 0 ≤ teamTotalScore starting captain_id := teamTotalScore_nonneg _ _ h
    have harg : 0 ≤ (teamTotalScore starting captain_id / (10 * 8.0 + 1 * 8.0 * 2)) * 100 := by
      positivity
    exact le_min (by norm_num) harg

/-- C6 witness: a concrete non-negative-score starter list is rated within
`[0, 100]`. -/
theorem C6_witness :
    0 ≤ rate_team [(pCap, 3)] 1 ∧ rate_team [(pCap, 3)] 1 ≤ 100 :=
  C6_amended.2.2 [(pCap, 3)] 1 (by with_unfolding_all decide)

/-! ## C7: valuation monotonicity -/

/-- C7 counterexample: the score is not strictly decreasing in difficulty
for every player — a player with zero form and points-per-game scores 0 at
every difficulty, so difficulty 2 does not score below difficulty 1. -/
theorem C7_counterexample :
    calculate_player_score pZero 2 = calculate_player_score pZero 1 ∧
    ¬ calculate_player_score pZero 2 < calculate_player_score pZero 1 := by
  constructor
  · with_unfolding_all decide
  · with_unfolding_all decide

/-- C7 amended: holding difficulty fixed the score is deterministic (it
depends only on `form` and `points_per_game`) and monotonically
non-decreasing in each of the two stats; holding the stats fixed it is
strictly decreasing along difficulty 1, 2, 3, 4, 5 for every player whose
base score `0.6 * form + 0.4 * points_per_game` is positive (for zero or
negative base the chain is flat or reversed, since the score is the base
times a positive decreasing modifier). -/
theorem C7_amended :
    (∀ (p q : Player) (d : ℤ), p.form = q.form → p.points_per_game = q.points_per_game →
      calculate_player_score p d = calculate_player_score q d) ∧
    (∀ (p q : Player) (d : ℤ), p.points_per_game = q.points_per_game →
      p.form.getD 0 ≤ q.form.getD 0 →
      calculate_player_score p d ≤ calculate_player_score q d) ∧
    (∀ (p q : Player) (d : ℤ), p.form = q.form →
      p.points_per_game.getD 0 ≤ q.points_per_game.getD 0 →
      calculate_player_score p d ≤ calculate_player_score q d) ∧
    (∀ p : Player, 0 < (p.form.getD 0) * 0.6 + (p.points_per_game.getD 0) * 0.4 →
      calculate_player_score p 2 < calculate_player_score p 1 ∧
      calculate_player_score p 3 < calculate_player_score p 2 ∧
      calculate_player_score p 4 < calculate_player_score p 3 ∧
      calculate_player_score p 5 < calculate_player_score p 4) := by
  refine ⟨?_, ?_, ?_, ?_⟩
  · intro p q d hf hg
    unfold calculate_player_score
    rw [hf, hg]
  · intro p q d hg hf
    unfold calculate_player_score
    have hm : 0 ≤ difficulty_modifier d := le_of_lt (difficulty_modifier_pos d)
    rw [hg]
    apply mul_le_mul_of_nonneg_right _ hm
    have h6 : (0 : ℚ) ≤ 0.6 := by norm_num
    nlinarith
  · intro p q d hf hg
    unfold calculate_player_score
    have hm : 0 ≤ difficulty_modifier d := le_of_lt (difficulty_modifier_pos d)
    rw [hf]
    apply mul_le_mul_of_nonneg_right _ hm
    nlinarith
  · intro p hbase
    have h1 : difficulty_modifier 1 = 1.2 := by norm_num [difficulty_modifier]
    have h2 : difficulty_modifier 2 = 1.1 := by norm_num [difficulty_modifier]
    have h3 : difficulty_modifier 3 = 1.0 := by norm_num [difficulty_modifier]
    have h4 : difficulty_modifier 4 = 0.9 := by norm_num [difficulty_modifier]
    have h5 : difficulty_modifier 5 = 0.8 := by norm_num [difficulty_modifier]
    unfold calculate_player_score
    rw [h1, h2, h3, h4, h5]
    refine ⟨?_, ?_, ?_, ?_⟩ <;> nlinarith

/-- C7 witness: concrete instances of determinism, monotonicity (form
`-100 ≤ 0` with equal points-per-game), and the strict difficulty chain at
a positive-base player. -/
theorem C7_witness :
    calculate_player_score pCap 3 = calculate_player_score pCap 3 ∧
    calculate_player_score pNeg 3 ≤ calculate_player_score pZero 3 ∧
    calculate_player_score pCap 2 < calculate_player_score pCap 1 :=
  ⟨C7_amended.1 pCap pCap 3 rfl rfl,
   C7_amended.2.1 pNeg pZero 3 (by with_unfolding_all decide) (by with_unfolding_all decide),
   (C7_amended.2.2.2 pCap (by with_unfolding_all decide)).1⟩

/-! ## C8: missing and non-numeric stats -/

/-- C8 counterexample: a present but non-numeric `form` value makes
`float(...)` raise (modelled as `none`) instead of degrading to the neutral
0.0 that the claim promises. -/
theorem C8_counterexample :
    calculate_player_score_raw badRaw 3 = none ∧
    calculate_player_score_raw badRaw 3 ≠
      some ((0 * 0.6 + 0 * 0.4) * difficulty_modifier 3) := by
  constructor
  · rfl
  · intro h
    exact Option.noConfusion (h.symm.trans rfl)

/-- C8 amended: the score is `(0.6 * form + 0.4 * points_per_game) *
modifier`; an absent stat is coerced to 0.0 (so missing data never raises),
and the same formula holds on raw dynamic records whenever each present
stat is numeric.  A present non-numeric stat, however, raises (`none`)
rather than degrading to 0.0. -/
theorem C8_amended :
    (∀ (p : Player) (d : ℤ),
      calculate_player_score p d =
        ((p.form.getD 0) * 0.6 + (p.points_per_game.getD 0) * 0.4) * difficulty_modifier d) ∧
    (∀ (p : RawPlayer) (d : ℤ),
      numericField p.form = true → numericField p.points_per_game = true →
      calculate_player_score_raw p d =
        some ((fieldValue p.form * 0.6 + fieldValue p.points_per_game * 0.4)
          * difficulty_modifier d)) := by
  constructor
  · intro p d; rfl
  · intro p d hf hg
    rcases p with ⟨f, g⟩
    rcases f with _ | f
    · rcases g with _ | g
      · rfl
      · rcases g with g | _
        · rfl
        · simp [numericField] at hg
    · rcases f with f | _
      · rcases g with _ | g
        · rfl
        · rcases g with g | _
          · rfl
          · simp [numericField] at hg
      · simp [numericField] at hf

/-- C8 witness: a raw player with numeric form 2.0 and absent
points-per-game scores `(2 * 0.6 + 0 * 0.4) * 1.2` at difficulty 1. -/
theorem C8_witness :
    calculate_player_score_raw goodRaw 1 =
      some ((fieldValue goodRaw.form * 0.6 + fieldValue goodRaw.points_per_game * 0.4)
        * difficulty_modifier 1) :=
  C8_amended.2 goodRaw 1 (by rfl) (by rfl)

/-! ## C9: the transfer engine mutates its input -/

/-- C9 counterexample: `suggest_replacements` sorts its first argument in
place, so a list given in descending score order comes back reordered — the
function is not pure in its arguments as claimed. -/
theorem C9_counterexample :
    (suggest_replacements [(pHi, 3), (pLo, 3)] [] [] none).1 ≠ [(pHi, 3), (pLo, 3)] := by
  with_unfolding_all decide

/-- C9 amended: after the call the input list holds the same elements but
stably sorted ascending by fixture-adjusted score (the in-place
`list.sort` of app.py line 129); it is a permutation of the original, and
no state outside the arguments is read or written (the embedding is a pure
function of its arguments). -/
theorem C9_amended :
    ∀ (tp : List (Player × ℤ)) (pool : List Player) (fixtures : List Fixture) (gw : Option ℤ),
      (suggest_replacements tp pool fixtures gw).1 =
        pySortAscBy (fun pd => calculate_player_score pd.1 pd.2) tp ∧
      ((suggest_replacements tp pool fixtures gw).1).Perm tp := by
  intro tp pool fixtures gw
  have heq : (suggest_replacements tp pool fixtures gw).1 =
      pySortAscBy (fun pd => calculate_player_score pd.1 pd.2) tp := by
    by_cases htp : tp = []
    · subst htp; rfl
    · simp [suggest_replacements, htp]
  refine ⟨heq, ?_⟩
  rw [heq]
  exact List.perm_insertionSort _ tp


/-! ## C5: chip triggers -/

theorem pyMaxBy_mem {α : Type} (key : α → ℚ) :
    ∀ (xs : List α) (x : α), pyMaxBy key x xs ∈ x :: xs := by
  intro xs
  induction xs with
  | nil => intro x; simp [pyMaxBy]
  | cons y ys ih =>
    intro x
    rw [pyMaxBy, List.foldl_cons]
    by_cases h : key x < key y
    · rw [if_pos h]
      have hm := ih y
      rw [pyMaxBy] at hm
      exact List.mem_cons_of_mem x hm
    · rw [if_neg h]
      have hm := ih x
      rw [pyMaxBy] at hm
      rcases List.mem_cons.1 hm with h1 | h1
      · rw [h1]; exact List.mem_cons_self x (y :: ys)
      · exact List.mem_cons_of_mem x (List.mem_cons_of_mem y h1)

theorem pyMaxBy_le {α : Type} (key : α → ℚ) :
    ∀ (xs : List α) (x : α), ∀ z ∈ x :: xs, key z ≤ key (pyMaxBy key x xs) := by
  intro xs
  induction xs with
  | nil =>
    intro x z hz
    rcases List.mem_cons.1 hz with h | h
    · rw [h]; simp [pyMaxBy]
    · simp at h
  | cons y ys ih =>
    intro x z hz
    rw [pyMaxBy, List.foldl_cons]
    have hseed1 : key x ≤ key (if key x < key y then y else x) := by
      by_cases h : key x < key y
      · rw [if_pos h]; exact le_of_lt h
      · rw [if_neg h]
    have hseed2 : key y ≤ key (if key x < key y then y else x) := by
      by_cases h : key x < key y
      · rw [if_pos h]
      · rw [if_neg h]; exact not_lt.1 h
    have hself : key (if key x < key y then y else x) ≤
        key (ys.foldl (fun acc z => if key acc < key z then z else acc)
          (if key x < key y then y else x)) := by
      have h1 := ih (if key x < key y then y else x) _
        (List.mem_cons_self (if key x < key y then y else x) ys)
      rw [pyMaxBy] at h1
      exact h1
    rcases List.mem_cons.1 hz with h1 | h1
    · rw [h1]; exact le_trans hseed1 hself
    · rcases List.mem_cons.1 h1 with h2 | h2
      · rw [h2]; exact le_trans hseed2 hself
      · have h3 := ih (if key x < key y then y else x) z (List.mem_cons_of_mem _ h2)
        rw [pyMaxBy] at h3
        exact h3

theorem pyMaxBy_score_spec (x : Player × ℤ) (xs : List (Player × ℤ)) :
    calculate_player_score
        (pyMaxBy (fun pd => calculate_player_score pd.1 pd.2) x xs).1
        (pyMaxBy (fun pd => calculate_player_score pd.1 pd.2) x xs).2
      ∈ (x :: xs).map (fun pd => calculate_player_score pd.1 pd.2) ∧
    ∀ m ∈ (x :: xs).map (fun pd => calculate_player_score pd.1 pd.2),
      m ≤ calculate_player_score
        (pyMaxBy (fun pd => calculate_player_score pd.1 pd.2) x xs).1
        (pyMaxBy (fun pd => calculate_player_score pd.1 pd.2) x xs).2 := by
  constructor
  · apply List.mem_map.2
    refine ⟨pyMaxBy (fun pd => calculate_player_score pd.1 pd.2) x xs,
      pyMaxBy_mem _ xs x, ?_⟩
    simp only
  · intro m hm
    rcases List.mem_map.1 hm with ⟨pd, hpd, hpd2⟩
    have h := pyMaxBy_le (fun pd => calculate_player_score pd.1 pd.2) xs x pd hpd
    simp only at h hpd2
    rw [hpd2] at h
    exact h

theorem mem_suggest_chips_benchBoost
    (starting bench : List (Player × ℤ)) (other : List Suggestion) (used : UsedChips) :
    ChipKind.benchBoost ∈ suggest_chips starting bench other used ↔
      used.benchBoost = false ∧
      15 < (bench.map fun pd => calculate_player_score pd.1 pd.2).sum := by
  constructor
  · intro h
    rw [suggest_chips] at h
    rcases List.mem_append.1 h with h | h
    · rcases List.mem_append.1 h with h | h
      · rcases List.mem_append.1 h with h | h
        · split_ifs at h with hc
          · exact ⟨by simpa using hc.1, hc.2.2⟩
          · simp at h
        · split_ifs at h with hut
          · simp at h
          · rcases starting with _ | ⟨x, xs⟩
            · simp [tcSegment] at h
            · rw [tcSegment] at h
              split_ifs at h <;> simp at h
      · split_ifs at h <;> simp at h
    · split_ifs at h with huf
      · simp at h
      · rcases other with _ | ⟨s, os⟩
        · simp [fhSegment] at h
        · rw [fhSegment] at h
          split_ifs at h <;> simp at h
  · rintro ⟨h1, h2⟩
    have hb : bench ≠ [] := by
      rintro rfl
      norm_num at h2
    rw [suggest_chips]
    apply List.mem_append.2
    left
    apply List.mem_append.2
    left
    apply List.mem_append.2
    left
    rw [if_pos ⟨by simp [h1], hb, h2⟩]
    exact List.mem_singleton.2 rfl

theorem mem_suggest_chips_tripleCaptain
    (starting bench : List (Player × ℤ)) (other : List Suggestion) (used : UsedChips) :
    ChipKind.tripleCaptain ∈ suggest_chips starting bench other used ↔
      used.tripleCaptain = false ∧
      ∃ m, m ∈ starting.map (fun pd => calculate_player_score pd.1 pd.2) ∧
        (∀ x ∈ starting.map (fun pd => calculate_player_score pd.1 pd.2), x ≤ m) ∧
        8.5 < m := by
  constructor
  · intro h
    rw [suggest_chips] at h
    rcases List.mem_append.1 h with h | h
    · rcases List.mem_append.1 h with h | h
      · rcases List.mem_append.1 h with h | h
        · split_ifs at h <;> simp at h
        · split_ifs at h with hut
          · simp at h
          · rcases starting with _ | ⟨x, xs⟩
            · simp [tcSegment] at h
            · rw [tcSegment] at h
              split_ifs at h with h85
              · refine ⟨by simpa using hut, ?_⟩
                obtain ⟨hmem, hmax⟩ := pyMaxBy_score_spec x xs
                exact ⟨_, hmem, hmax, h85⟩
              · simp at h
      · split_ifs at h <;> simp at h
    · split_ifs at h with huf
      · simp at h
      · rcases other with _ | ⟨s, os⟩
        · simp [fhSegment] at h
        · rw [fhSegment] at h
          split_ifs at h <;> simp at h
  · rintro ⟨h1, m, hm, hbound, h85⟩
    rcases starting with _ | ⟨x, xs⟩
    · simp at hm
    · rw [suggest_chips]
      apply List.mem_append.2
      left
      apply List.mem_append.2
      left
      apply List.mem_append.2
      right
      rw [if_neg (by simp [h1])]
      rw [tcSegment]
      obtain ⟨hmem, hmax⟩ := pyMaxBy_score_spec x xs
      have hcand := lt_of_lt_of_le h85 (hmax m hm)
      rw [if_pos hcand]
      exact List.mem_singleton.2 rfl

theorem mem_suggest_chips_wildcard
    (starting bench : List (Player × ℤ)) (other : List Suggestion) (used : UsedChips) :
    ChipKind.wildcard ∈ suggest_chips starting bench other used ↔
      used.wildcard = false ∧ 5 ≤ other.length := by
  constructor
  · intro h
    rw [suggest_chips] at h
    rcases List.mem_append.1 h with h | h
    · rcases List.mem_append.1 h with h | h
      · rcases List.mem_append.1 h with h | h
        · split_ifs at h <;> simp at h
        · split_ifs at h with hut
          · simp at h
          · rcases starting with _ | ⟨x, xs⟩
            · simp [tcSegment] at h
            · rw [tcSegment] at h
              split_ifs at h <;> simp at h
      · split_ifs at h with hc
        · exact ⟨by simpa using hc.1, hc.2⟩
        · simp at h
    · split_ifs at h with huf
      · simp at h
      · rcases other with _ | ⟨s, os⟩
        · simp [fhSegment] at h
        · rw [fhSegment] at h
          split_ifs at h <;> simp at h
  · rintro ⟨h1, h2⟩
    rw [suggest_chips]
    apply List.mem_append.2
    left
    apply List.mem_append.2
    right
    rw [if_pos ⟨by simp [h1], h2⟩]
    exact List.mem_singleton.2 rfl

theorem mem_suggest_chips_freeHit
    (starting bench : List (Player × ℤ)) (other : List Suggestion) (used : UsedChips) :
    ChipKind.freeHit ∈ suggest_chips starting bench other used ↔
      used.freeHit = false ∧ ∃ s, other.head? = some s ∧ 3.0 < s.score_gain := by
  constructor
  · intro h
    rw [suggest_chips] at h
    rcases List.mem_append.1 h with h | h
    · rcases List.mem_append.1 h with h | h
      · rcases List.mem_append.1 h with h | h
        · split_ifs at h <;> simp at h
        · split_ifs at h with hut
          · simp at h
          · rcases starting with _ | ⟨x, xs⟩
            · simp [tcSegment] at h
            · rw [tcSegment] at h
              split_ifs at h <;> simp at h
      · split_ifs at h <;> simp at h
    · split_ifs at h with huf
      · simp at h
      · rcases other with _ | ⟨s, os⟩
        · simp [fhSegment] at h
        · rw [fhSegment] at h
          split_ifs at h with h3
          · exact ⟨by simpa using huf, s, rfl, h3⟩
          · simp at h
  · rintro ⟨h1, s, hs, h3⟩
    rcases other with _ | ⟨s0, os⟩
    · simp at hs
    · simp only [List.head?_cons, Option.some.injEq] at hs
      subst hs
      rw [suggest_chips]
      apply List.mem_append.2
      right
      rw [if_neg (by simp [h1])]
      rw [fhSegment]
      rw [if_pos h3]
      exact List.mem_singleton.2 rfl

theorem count_chip_ite_le_one (c : Prop) [Decidable c] (k k0 : ChipKind) :
    (if c then [k0] else []).count k ≤ 1 := by
  split_ifs
  · have h := List.count_le_length k [k0]
    simpa using h
  · simp

theorem count_chip_ite_eq_zero (c : Prop) [Decidable c] {k k0 : ChipKind} (h : k ≠ k0) :
    (if c then [k0] else []).count k = 0 := by
  split_ifs <;> simp [List.count_eq_zero, h]

theorem tcSegment_count_le_one (s : List (Player × ℤ)) (k : ChipKind) :
    (tcSegment s).count k ≤ 1 := by
  rcases s with _ | ⟨x, xs⟩
  · simp [tcSegment]
  · rw [tcSegment]
    exact count_chip_ite_le_one _ _ _

theorem tcSegment_count_eq_zero (s : List (Player × ℤ)) {k : ChipKind}
    (h : k ≠ ChipKind.tripleCaptain) : (tcSegment s).count k = 0 := by
  rcases s with _ | ⟨x, xs⟩
  · simp [tcSegment]
  · rw [tcSegment]
    exact count_chip_ite_eq_zero _ h

theorem fhSegment_count_le_one (o : List Suggestion) (k : ChipKind) :
    (fhSegment o).count k ≤ 1 := by
  rcases o with _ | ⟨s, os⟩
  · simp [fhSegment]
  · rw [fhSegment]
    exact count_chip_ite_le_one _ _ _

theorem fhSegment_count_eq_zero (o : List Suggestion) {k : ChipKind}
    (h : k ≠ ChipKind.freeHit) : (fhSegment o).count k = 0 := by
  rcases o with _ | ⟨s, os⟩
  · simp [fhSegment]
  · rw [fhSegment]
    exact count_chip_ite_eq_zero _ h

theorem suggest_chips_count_le_one
    (starting bench : List (Player × ℤ)) (other : List Suggestion) (used : UsedChips)
    (k : ChipKind) :
    (suggest_chips starting bench other used).count k ≤ 1 := by
  rw [suggest_chips]
  simp only [List.count_append]
  have hB1 : (if used.tripleCaptain = true then [] else tcSegment starting).count k ≤ 1 := by
    split_ifs
    · simp
    · exact tcSegment_count_le_one starting k
  have hB0 : k ≠ ChipKind.tripleCaptain →
      (if used.tripleCaptain = true then [] else tcSegment starting).count k = 0 := by
    intro hk
    split_ifs
    · simp
    · exact tcSegment_count_eq_zero starting hk
  have hD1 : (if used.freeHit = true then [] else fhSegment other).count k ≤ 1 := by
    split_ifs
    · simp
    · exact fhSegment_count_le_one other k
  have hD0 : k ≠ ChipKind.freeHit →
      (if used.freeHit = true then [] else fhSegment other).count k = 0 := by
    intro hk
    split_ifs
    · simp
    · exact fhSegment_count_eq_zero other hk
  have hA1 := count_chip_ite_le_one
    (¬used.benchBoost = true ∧ bench ≠ [] ∧
      15 < (bench.map fun pd => calculate_player_score pd.1 pd.2).sum)
    k ChipKind.benchBoost
  have hC1 := count_chip_ite_le_one
    (¬used.wildcard = true ∧ 5 ≤ other.length) k ChipKind.wildcard
  cases k
  · have h2 := hB0 (by simp)
    have h3 := count_chip_ite_eq_zero
      (¬used.wildcard = true ∧ 5 ≤ other.length)
      (show ChipKind.benchBoost ≠ ChipKind.wildcard by simp)
    have h4 := hD0 (by simp)
    omega
  · have h1 := count_chip_ite_eq_zero
      (¬used.benchBoost = true ∧ bench ≠ [] ∧
        15 < (bench.map fun pd => calculate_player_score pd.1 pd.2).sum)
      (show ChipKind.tripleCaptain ≠ ChipKind.benchBoost by simp)
    have h3 := count_chip_ite_eq_zero
      (¬used.wildcard = true ∧ 5 ≤ other.length)
      (show ChipKind.tripleCaptain ≠ ChipKind.wildcard by simp)
    have h4 := hD0 (by simp)
    omega
  · have h1 := count_chip_ite_eq_zero
      (¬used.benchBoost = true ∧ bench ≠ [] ∧
        15 < (bench.map fun pd => calculate_player_score pd.1 pd.2).sum)
      (show ChipKind.wildcard ≠ ChipKind.benchBoost by simp)
    have h2 := hB0 (by simp)
    have h4 := hD0 (by simp)
    omega
  · have h1 := count_chip_ite_eq_zero
      (¬used.benchBoost = true ∧ bench ≠ [] ∧
        15 < (bench.map fun pd => calculate_player_score pd.1 pd.2).sum)
      (show ChipKind.freeHit ≠ ChipKind.benchBoost by simp)
    have h2 := hB0 (by simp)
    have h3 := count_chip_ite_eq_zero
      (¬used.wildcard = true ∧ 5 ≤ other.length)
      (show ChipKind.freeHit ≠ ChipKind.wildcard by simp)
    omega

/-- C5: the chip advisor recommends Bench Boost iff it is unused and the
bench's total score exceeds 15, Triple Captain iff unused and the maximal
starter score exceeds 8.5, Wildcard iff unused and there are at least 5
other suggestions, Free Hit iff unused and the first other suggestion's
delta exceeds 3.0; a used chip is always suppressed (each iff requires the
used flag to be false), and each kind appears at most once. -/
theorem C5_chip_triggers :
    ∀ (starting bench : List (Player × ℤ)) (other : List Suggestion) (used : UsedChips),
      (ChipKind.benchBoost ∈ suggest_chips starting bench other used ↔
        used.benchBoost = false ∧
        15 < (bench.map fun pd => calculate_player_score pd.1 pd.2).sum) ∧
      (ChipKind.tripleCaptain ∈ suggest_chips starting bench other used ↔
        used.tripleCaptain = false ∧
        ∃ m, m ∈ starting.map (fun pd => calculate_player_score pd.1 pd.2) ∧
          (∀ x ∈ starting.map (fun pd => calculate_player_score pd.1 pd.2), x ≤ m) ∧
          8.5 < m) ∧
      (ChipKind.wildcard ∈ suggest_chips starting bench other used ↔
        used.wildcard = false ∧ 5 ≤ other.length) ∧
      (ChipKind.freeHit ∈ suggest_chips starting bench other used ↔
        used.freeHit = false ∧ ∃ s, other.head? = some s ∧ 3.0 < s.score_gain) ∧
      (∀ k, (suggest_chips starting bench other used).count k ≤ 1) :=
  fun starting bench other used =>
    ⟨mem_suggest_chips_benchBoost starting bench other used,
     mem_suggest_chips_tripleCaptain starting bench other used,
     mem_suggest_chips_wildcard starting bench other used,
     mem_suggest_chips_freeHit starting bench other used,
     suggest_chips_count_le_one starting bench other used⟩

/-! ## C1 and C10: greedy wildcard invariants -/

theorem totalPrice_append (l : List ScoredP) (pd : ScoredP) :
    totalPrice (l ++ [pd]) = totalPrice l + (pd.player.now_cost : ℚ) / 10 := by
  simp [totalPrice]

theorem clubCount_append (l : List ScoredP) (pd : ScoredP) (t : ℤ) :
    clubCount (l ++ [pd]) t = clubCount l t + (if pd.player.team = t then 1 else 0) := by
  simp only [clubCount, List.countP_append, List.countP_cons, List.countP_nil]
  by_cases h : pd.player.team = t <;> simp [h]

theorem posCount_append (l : List ScoredP) (pd : ScoredP) (q : Pos) :
    posCount (l ++ [pd]) q = posCount l q + (if pd.player.element_type = q then 1 else 0) := by
  simp only [posCount, List.countP_append, List.countP_cons, List.countP_nil]
  by_cases h : pd.player.element_type = q <;> simp [h]

theorem wcStep_inv (st : WState) (pd : ScoredP) (h : WInv st) : WInv (wcStep st pd) := by
  obtain ⟨hb, hb0, htc, htc3, hpc, hpcl⟩ := h
  rw [wcStep]
  split_ifs with h15 h3 hcond
  · exact ⟨hb, hb0, htc, htc3, hpc, hpcl⟩
  · exact ⟨hb, hb0, htc, htc3, hpc, hpcl⟩
  · obtain ⟨hq, hbp⟩ := hcond
    refine ⟨?_, ?_, ?_, ?_, ?_, ?_⟩
    · simp only
      rw [totalPrice_append]
      linarith
    · simp only
      linarith
    · intro t
      simp only
      rw [clubCount_append]
      by_cases ht : t = pd.player.team
      · rw [if_pos ht, htc t, if_pos ht.symm]
      · rw [if_neg ht, htc t, if_neg (fun hh => ht hh.symm), add_zero]
    · intro t
      simp only
      by_cases ht : t = pd.player.team
      · rw [if_pos ht]
        subst ht
        omega
      · rw [if_neg ht]
        exact htc3 t
    · intro q
      simp only
      rw [posCount_append]
      by_cases hq2 : q = pd.player.element_type
      · rw [if_pos hq2, hpc q, if_pos hq2.symm]
      · rw [if_neg hq2, hpc q, if_neg (fun hh => hq2 hh.symm), add_zero]
    · intro q
      simp only
      by_cases hq2 : q = pd.player.element_type
      · rw [if_pos hq2]
        subst hq2
        omega
      · rw [if_neg hq2]
        exact hpcl q
  · exact ⟨hb, hb0, htc, htc3, hpc, hpcl⟩

theorem foldl_wcStep_inv (l : List ScoredP) : ∀ st, WInv st → WInv (l.foldl wcStep st) := by
  induction l with
  | nil => intro st h; exact h
  | cons x xs ih => intro st h; exact ih _ (wcStep_inv st x h)

theorem initWState_inv : WInv initWState := by
  refine ⟨?_, ?_, ?_, ?_, ?_, ?_⟩
  · simp [initWState, totalPrice]
  · simp [initWState]
  · intro t; simp [initWState, clubCount]
  · intro t; simp [initWState]
  · intro q; simp [initWState, posCount]
  · intro q; cases q <;> simp [initWState, posLimit]

theorem wildcardState_inv (pool : List Player) (fixtures : List Fixture) (gw : Option ℤ) :
    WInv (wildcardState pool fixtures gw) :=
  foldl_wcStep_inv _ _ initWState_inv

theorem length_eq_sum_posCount (l : List ScoredP) :
    l.length = posCount l Pos.GKP + posCount l Pos.DEF +
      posCount l Pos.MID + posCount l Pos.FWD := by
  induction l with
  | nil => simp [posCount]
  | cons p t ih =>
    cases hp : p.player.element_type <;>
      simp [posCount, List.countP_cons, hp] at ih ⊢ <;> omega

/-- C10: even when the pool is exhausted before 15 admissions, the greedy
wildcard squad keeps every constraint: total price at most 100.0, at most 3
players per club, per-position counts within the 2/5/5/3 quotas — and at
every step of the greedy scan (after any prefix of the score-sorted pool)
the remaining budget is non-negative. -/
theorem C10_wildcard_partial_invariants :
    ∀ (pool : List Player) (fixtures : List Fixture) (gw : Option ℤ),
      (totalPrice (wildcardSquad pool fixtures gw) ≤ 100 ∧
        (∀ t, clubCount (wildcardSquad pool fixtures gw) t ≤ 3) ∧
        (∀ q, posCount (wildcardSquad pool fixtures gw) q ≤ posLimit q)) ∧
      (∀ n : ℕ,
        0 ≤ (((scoredPoolSorted pool fixtures gw).take n).foldl wcStep initWState).budget ∧
        totalPrice (((scoredPoolSorted pool fixtures gw).take n).foldl wcStep initWState).squad
          ≤ 100 ∧
        (∀ t, clubCount
          (((scoredPoolSorted pool fixtures gw).take n).foldl wcStep initWState).squad t ≤ 3) ∧
        (∀ q, posCount
          (((scoredPoolSorted pool fixtures gw).take n).foldl wcStep initWState).squad q
            ≤ posLimit q)) := by
  intro pool fixtures gw
  constructor
  · obtain ⟨hb, hb0, htc, htc3, hpc, hpcl⟩ := wildcardState_inv pool fixtures gw
    refine ⟨?_, ?_, ?_⟩
    · unfold wildcardSquad
      linarith
    · intro t
      unfold wildcardSquad
      rw [← htc t]
      exact htc3 t
    · intro q
      unfold wildcardSquad
      rw [← hpc q]
      exact hpcl q
  · intro n
    obtain ⟨hb, hb0, htc, htc3, hpc, hpcl⟩ :=
      foldl_wcStep_inv ((scoredPoolSorted pool fixtures gw).take n) initWState initWState_inv
    refine ⟨hb0, by linarith, ?_, ?_⟩
    · intro t
      rw [← htc t]
      exact htc3 t
    · intro q
      rw [← hpc q]
      exact hpcl q

/-- C1: whenever the greedy wildcard builder admits a full 15-player squad,
that squad's total price is at most 100.0, no club contributes more than 3
players, and the position counts hit the quotas exactly: 2 keepers, 5
defenders, 5 midfielders, 3 forwards. -/
theorem C1_wildcard_full_squad :
    ∀ (pool : List Player) (fixtures : List Fixture) (gw : Option ℤ),
      (wildcardSquad pool fixtures gw).length = 15 →
      totalPrice (wildcardSquad pool fixtures gw) ≤ 100 ∧
      (∀ t, clubCount (wildcardSquad pool fixtures gw) t ≤ 3) ∧
      posCount (wildcardSquad pool fixtures gw) Pos.GKP = 2 ∧
      posCount (wildcardSquad pool fixtures gw) Pos.DEF = 5 ∧
      posCount (wildcardSquad pool fixtures gw) Pos.MID = 5 ∧
      posCount (wildcardSquad pool fixtures gw) Pos.FWD = 3 := by
  intro pool fixtures gw hlen
  obtain ⟨hb, hb0, htc, htc3, hpc, hpcl⟩ := wildcardState_inv pool fixtures gw
  have hsum := length_eq_sum_posCount (wildcardSquad pool fixtures gw)
  have hgkp : posCount (wildcardSquad pool fixtures gw) Pos.GKP ≤ 2 := by
    have h1 := hpcl Pos.GKP
    have h2 := hpc Pos.GKP
    unfold wildcardSquad
    rw [← h2]
    simpa [posLimit] using h1
  have hdef : posCount (wildcardSquad pool fixtures gw) Pos.DEF ≤ 5 := by
    have h1 := hpcl Pos.DEF
    have h2 := hpc Pos.DEF
    unfold wildcardSquad
    rw [← h2]
    simpa [posLimit] using h1
  have hmid : posCount (wildcardSquad pool fixtures gw) Pos.MID ≤ 5 := by
    have h1 := hpcl Pos.MID
    have h2 := hpc Pos.MID
    unfold wildcardSquad
    rw [← h2]
    simpa [posLimit] using h1
  have hfwd : posCount (wildcardSquad pool fixtures gw) Pos.FWD ≤ 3 := by
    have h1 := hpcl Pos.FWD
    have h2 := hpc Pos.FWD
    unfold wildcardSquad
    rw [← h2]
    simpa [posLimit] using h1
  refine ⟨?_, ?_, ?_, ?_, ?_, ?_⟩
  · unfold wildcardSquad
    linarith
  · intro t
    unfold wildcardSquad
    rw [← htc t]
    exact htc3 t
  · omega
  · omega
  · omega
  · omega

/-- C1 witness: a 15-player pool with quota-exact composition, five clubs
of three players each and price 4.0 apiece fills the squad, which then
satisfies every constraint. -/
theorem C1_witness :
    (wildcardSquad testPool [] none).length = 15 ∧
    (totalPrice (wildcardSquad testPool [] none) ≤ 100 ∧
      (∀ t, clubCount (wildcardSquad testPool [] none) t ≤ 3) ∧
      posCount (wildcardSquad testPool [] none) Pos.GKP = 2 ∧
      posCount (wildcardSquad testPool [] none) Pos.DEF = 5 ∧
      posCount (wildcardSquad testPool [] none) Pos.MID = 5 ∧
      posCount (wildcardSquad testPool [] none) Pos.FWD = 3) :=
  ⟨by with_unfolding_all decide,
   C1_wildcard_full_squad testPool [] none (by with_unfolding_all decide)⟩

/-! ## C4: lineup formatter counts -/

theorem le_fst_of_mem_enumFrom {α : Type} :
    ∀ (xs : List α) (k : ℕ) (ix : ℕ × α), ix ∈ List.enumFrom k xs → k ≤ ix.1 := by
  intro xs
  induction xs with
  | nil => intro k ix h; simp at h
  | cons x t ih =>
    intro k ix h
    rw [List.enumFrom_cons] at h
    rcases List.mem_cons.1 h with h1 | h1
    · rw [h1]
    · have h2 := ih (k + 1) ix h1
      omega

theorem assignRoles_tail_not_captain (t : List ScoredP) (k : ℕ) (hk : 1 ≤ k) :
    ∀ e ∈ (List.enumFrom k t).map (fun ip =>
      (⟨ip.2.player, if ip.1 = 0 then Role.Captain
                     else if ip.1 = 1 then Role.ViceCaptain
                     else Role.Starter⟩ : RoleP)), ¬e.role = Role.Captain := by
  intro e he
  rcases List.mem_map.1 he with ⟨ix, hix, rfl⟩
  have h1 := le_fst_of_mem_enumFrom t k ix hix
  simp only
  rw [if_neg (by omega)]
  split_ifs <;> simp

theorem assignRoles_tail_not_vice (t : List ScoredP) (k : ℕ) (hk : 2 ≤ k) :
    ∀ e ∈ (List.enumFrom k t).map (fun ip =>
      (⟨ip.2.player, if ip.1 = 0 then Role.Captain
                     else if ip.1 = 1 then Role.ViceCaptain
                     else Role.Starter⟩ : RoleP)), ¬e.role = Role.ViceCaptain := by
  intro e he
  rcases List.mem_map.1 he with ⟨ix, hix, rfl⟩
  have h1 := le_fst_of_mem_enumFrom t k ix hix
  simp only
  rw [if_neg (by omega), if_neg (by omega)]
  simp

theorem assignRoles_role_ne_sub (xs : List ScoredP) :
    ∀ e ∈ assignRoles xs, ¬e.role = Role.Sub := by
  intro e he
  rw [assignRoles] at he
  rcases List.mem_map.1 he with ⟨ix, hix, rfl⟩
  simp only
  split_ifs <;> simp

theorem roleCount_assignRoles_captain (xs : List ScoredP) :
    roleCount (assignRoles xs) Role.Captain = if 1 ≤ xs.length then 1 else 0 := by
  rcases xs with _ | ⟨a, t⟩
  · simp [assignRoles, roleCount, List.enum]
  · rw [assignRoles]
    have henum : (a :: t).enum = (0, a) :: List.enumFrom 1 t := by
      simp [List.enum]
    rw [henum, List.map_cons, roleCount, List.countP_cons]
    have htail : ((List.enumFrom 1 t).map (fun ip =>
        (⟨ip.2.player, if ip.1 = 0 then Role.Captain
                       else if ip.1 = 1 then Role.ViceCaptain
                       else Role.Starter⟩ : RoleP))).countP
          (fun e => e.role = Role.Captain) = 0 :=
      List.countP_eq_zero.2 (by
        intro e he
        have h := assignRoles_tail_not_captain t 1 le_rfl e he
        simpa using h)
    rw [htail]
    simp

theorem roleCount_assignRoles_vice (xs : List ScoredP) :
    roleCount (assignRoles xs) Role.ViceCaptain = if 2 ≤ xs.length then 1 else 0 := by
  rcases xs with _ | ⟨a, t⟩
  · simp [assignRoles, roleCount, List.enum]
  · rcases t with _ | ⟨b, t2⟩
    · simp [assignRoles, roleCount, List.enum]
    · rw [assignRoles]
      have henum : (a :: b :: t2).enum = (0, a) :: (1, b) :: List.enumFrom 2 t2 := by
        simp [List.enum]
      rw [henum, List.map_cons, List.map_cons, roleCount,
        List.countP_cons, List.countP_cons]
      have htail : ((List.enumFrom 2 t2).map (fun ip =>
          (⟨ip.2.player, if ip.1 = 0 then Role.Captain
                         else if ip.1 = 1 then Role.ViceCaptain
                         else Role.Starter⟩ : RoleP))).countP
            (fun e => e.role = Role.ViceCaptain) = 0 :=
        List.countP_eq_zero.2 (by
          intro e he
          have h := assignRoles_tail_not_vice t2 2 le_rfl e he
          simpa using h)
      rw [htail]
      simp

theorem roleCount_assignRoles_sub (xs : List ScoredP) :
    roleCount (assignRoles xs) Role.Sub = 0 := by
  rw [roleCount]
  exact List.countP_eq_zero.2 (by
    intro e he
    have h := assignRoles_role_ne_sub xs e he
    simpa using h)

theorem starterCount_assignRoles (xs : List ScoredP) :
    starterCount (assignRoles xs) = xs.length := by
  rw [starterCount]
  have hall : ∀ e ∈ assignRoles xs, decide (¬e.role = Role.Sub) = true := by
    intro e he
    have h := assignRoles_role_ne_sub xs e he
    simpa using h
  rw [List.countP_eq_length.2 hall]
  rw [assignRoles, List.length_map, List.enum_length]

theorem roleCount_subs_sub (b : List ScoredP) :
    roleCount (b.map fun p => (⟨p.player, Role.Sub⟩ : RoleP)) Role.Sub = b.length := by
  rw [roleCount, List.countP_map]
  simp

theorem roleCount_subs_ne (b : List ScoredP) (r : Role) (hr : ¬r = Role.Sub) :
    roleCount (b.map fun p => (⟨p.player, Role.Sub⟩ : RoleP)) r = 0 := by
  rw [roleCount, List.countP_map]
  have h : ∀ p ∈ b, ¬((⟨p.player, Role.Sub⟩ : RoleP).role = r) := by
    intro p hp h2
    exact hr (by simpa using h2.symm)
  exact List.countP_eq_zero.2 (by
    intro p hp
    have := h p hp
    simpa using this)

theorem starterCount_subs (b : List ScoredP) :
    starterCount (b.map fun p => (⟨p.player, Role.Sub⟩ : RoleP)) = 0 := by
  rw [starterCount, List.countP_map]
  simp [Function.comp]

theorem length_pySortDescBy {α : Type} (key : α → ℚ) (l : List α) :
    (pySortDescBy key l).length = l.length := by
  rw [pySortDescBy, List.length_insertionSort]

theorem length_filter_pos (squad : List ScoredP) (q : Pos) :
    (squad.filter fun p => p.player.element_type = q).length = posCount squad q := by
  rw [posCount]
  exact (List.countP_eq_length_filter _ _).symm

theorem starterCount_append (l1 l2 : List RoleP) :
    starterCount (l1 ++ l2) = starterCount l1 + starterCount l2 := by
  simp [starterCount, List.countP_append]

theorem roleCount_append (l1 l2 : List RoleP) (r : Role) :
    roleCount (l1 ++ l2) r = roleCount l1 r + roleCount l2 r := by
  simp [roleCount, List.countP_append]

theorem buildLineupWC_counts (squad : List ScoredP) (g k : ℕ)
    (hg : posCount squad Pos.GKP = g)
    (hk : posCount squad Pos.DEF + posCount squad Pos.MID + posCount squad Pos.FWD = k)
    (hg1 : 1 ≤ g) (hk10 : 10 ≤ k) :
    starterCount (buildLineupWC squad) = 11 ∧
    roleCount (buildLineupWC squad) Role.Captain = 1 ∧
    roleCount (buildLineupWC squad) Role.ViceCaptain = 1 ∧
    roleCount (buildLineupWC squad) Role.Sub = min 1 (g - 1) + (k - 10) := by
  simp only [buildLineupWC]
  refine ⟨?_, ?_, ?_, ?_⟩
  · rw [starterCount_append, starterCount_assignRoles, starterCount_subs,
      length_pySortDescBy]
    simp only [List.length_append, List.length_take, List.length_drop,
      length_pySortDescBy, length_filter_pos, hg, hk]
    omega
  · rw [roleCount_append, roleCount_assignRoles_captain,
      roleCount_subs_ne _ _ (by simp), length_pySortDescBy]
    simp only [List.length_append, List.length_take, List.length_drop,
      length_pySortDescBy, length_filter_pos, hg, hk]
    split_ifs with hcase <;> omega
  · rw [roleCount_append, roleCount_assignRoles_vice,
      roleCount_subs_ne _ _ (by simp), length_pySortDescBy]
    simp only [List.length_append, List.length_take, List.length_drop,
      length_pySortDescBy, length_filter_pos, hg, hk]
    split_ifs with hcase <;> omega
  · rw [roleCount_append, roleCount_assignRoles_sub, roleCount_subs_sub]
    simp only [List.length_append, List.length_take, List.length_drop,
      length_pySortDescBy, length_filter_pos, hg, hk]
    omega

theorem buildLineupFT_counts (squad : List ScoredP) (g d m f : ℕ)
    (hg : posCount squad Pos.GKP = g)
    (hd : posCount squad Pos.DEF = d)
    (hm : posCount squad Pos.MID = m)
    (hf : posCount squad Pos.FWD = f)
    (hg1 : 1 ≤ g) (hd3 : 3 ≤ d) (hm2 : 2 ≤ m) (hf1 : 1 ≤ f)
    (hout : 10 ≤ d + m + f) :
    starterCount (buildLineupFT squad) = 11 ∧
    roleCount (buildLineupFT squad) Role.Captain = 1 ∧
    roleCount (buildLineupFT squad) Role.ViceCaptain = 1 ∧
    roleCount (buildLineupFT squad) Role.Sub = (g - 1) + (d + m + f - 10) := by
  simp only [buildLineupFT]
  refine ⟨?_, ?_, ?_, ?_⟩
  · rw [starterCount_append, starterCount_assignRoles, starterCount_subs,
      length_pySortDescBy]
    simp only [List.length_append, List.length_take, List.length_drop,
      length_pySortDescBy, length_filter_pos, hg, hd, hm, hf]
    omega
  · rw [roleCount_append, roleCount_assignRoles_captain,
      roleCount_subs_ne _ _ (by simp), length_pySortDescBy]
    simp only [List.length_append, List.length_take, List.length_drop,
      length_pySortDescBy, length_filter_pos, hg, hd, hm, hf]
    split_ifs with hcase <;> omega
  · rw [roleCount_append, roleCount_assignRoles_vice,
      roleCount_subs_ne _ _ (by simp), length_pySortDescBy]
    simp only [List.length_append, List.length_take, List.length_drop,
      length_pySortDescBy, length_filter_pos, hg, hd, hm, hf]
    split_ifs with hcase <;> omega
  · rw [roleCount_append, roleCount_assignRoles_sub, roleCount_subs_sub]
    simp only [List.length_append, List.length_take, List.length_drop,
      length_pySortDescBy, length_filter_pos, hg, hd, hm, hf]
    omega

/-- C4 counterexample: "any scored pool with at least 15 players" is wrong
on both axes.  A 15-player pool consisting entirely of keepers produces a
single starter and no Vice-Captain, and a 16-player pool (1 keeper, 15
defenders) produces 5 bench entries instead of 4. -/
theorem C4_counterexample :
    starterCount (buildLineupWC keeperSquad15) = 1 ∧
    roleCount (buildLineupWC keeperSquad15) Role.ViceCaptain = 0 ∧
    roleCount (buildLineupWC bigSquad16) Role.Sub = 5 := by
  refine ⟨?_, ?_, ?_⟩ <;> with_unfolding_all decide

/-- C4 amended: for a pool of exactly 15 scored players with exactly 1 or
2 keepers (in particular every full wildcard squad), the wildcard-path
lineup formatter outputs exactly 11 starters, 4 bench entries, one Captain
and one Vice-Captain; likewise the post-transfer formatter for a 15-player
pool with at least 1 keeper, 3 defenders, 2 midfielders, 1 forward and at
least 10 outfielders.  Pools of other sizes or compositions can produce
short lineups (keepers beyond the second are dropped by the wildcard path). -/
theorem C4_amended :
    (∀ squad : List ScoredP, squad.length = 15 →
      (posCount squad Pos.GKP = 1 ∨ posCount squad Pos.GKP = 2) →
      starterCount (buildLineupWC squad) = 11 ∧
      roleCount (buildLineupWC squad) Role.Sub = 4 ∧
      roleCount (buildLineupWC squad) Role.Captain = 1 ∧
      roleCount (buildLineupWC squad) Role.ViceCaptain = 1) ∧
    (∀ squad : List ScoredP, squad.length = 15 →
      1 ≤ posCount squad Pos.GKP →
      3 ≤ posCount squad Pos.DEF →
      2 ≤ posCount squad Pos.MID →
      1 ≤ posCount squad Pos.FWD →
      10 ≤ posCount squad Pos.DEF + posCount squad Pos.MID + posCount squad Pos.FWD →
      starterCount (buildLineupFT squad) = 11 ∧
      roleCount (buildLineupFT squad) Role.Sub = 4 ∧
      roleCount (buildLineupFT squad) Role.Captain = 1 ∧
      roleCount (buildLineupFT squad) Role.ViceCaptain = 1) := by
  constructor
  · intro squad hlen hg
    have hsum := length_eq_sum_posCount squad
    rw [hlen] at hsum
    have hcounts := buildLineupWC_counts squad (posCount squad Pos.GKP)
      (posCount squad Pos.DEF + posCount squad Pos.MID + posCount squad Pos.FWD)
      rfl rfl (by omega) (by omega)
    obtain ⟨h1, h2, h3, h4⟩ := hcounts
    refine ⟨h1, ?_, h2, h3⟩
    rw [h4]
    omega
  · intro squad hlen hgkp hdef hmid hfwd hout
    have hcounts := buildLineupFT_counts squad (posCount squad Pos.GKP)
      (posCount squad Pos.DEF) (posCount squad Pos.MID) (posCount squad Pos.FWD)
      rfl rfl rfl rfl hgkp hdef hmid hfwd hout
    obtain ⟨h1, h2, h3, h4⟩ := hcounts
    have hsum := length_eq_sum_posCount squad
    rw [hlen] at hsum
    refine ⟨h1, ?_, h2, h3⟩
    rw [h4]
    omega

/-- C4 witness: the quota-exact 15-player scored squad (2 keepers) yields
11 starters, 4 bench entries, one Captain and one Vice-Captain through
both formatter paths. -/
theorem C4_witness :
    (starterCount (buildLineupWC testSquadScored) = 11 ∧
      roleCount (buildLineupWC testSquadScored) Role.Sub = 4 ∧
      roleCount (buildLineupWC testSquadScored) Role.Captain = 1 ∧
      roleCount (buildLineupWC testSquadScored) Role.ViceCaptain = 1) ∧
    (starterCount (buildLineupFT testSquadScored) = 11 ∧
      roleCount (buildLineupFT testSquadScored) Role.Sub = 4 ∧
      roleCount (buildLineupFT testSquadScored) Role.Captain = 1 ∧
      roleCount (buildLineupFT testSquadScored) Role.ViceCaptain = 1) :=
  ⟨C4_amended.1 testSquadScored (by with_unfolding_all decide)
      (by with_unfolding_all decide),
   C4_amended.2 testSquadScored (by with_unfolding_all decide)
      (by with_unfolding_all decide) (by with_unfolding_all decide)
      (by with_unfolding_all decide) (by with_unfolding_all decide)
      (by with_unfolding_all decide)⟩

/-! ## C2: transfer suggestions -/

theorem pySortDescBy_head_split {α : Type} (key : α → ℚ) :
    ∀ (l : List α) (hd : α) (tl : List α),
      pySortDescBy key l = hd :: tl →
      ∃ l1 l2, l = l1 ++ hd :: l2 ∧ (∀ y ∈ l1, key y < key hd) ∧ ∀ y ∈ l, key y ≤ key hd := by
  intro l
  induction l with
  | nil => intro hd tl h; simp [pySortDescBy] at h
  | cons x xs ih =>
    intro hd tl h
    rw [pySortDescBy] at h
    simp only [List.insertionSort] at h
    cases hsx : List.insertionSort (fun a b => key b ≤ key a) xs with
    | nil =>
      have hxs : xs = [] := by
        have hl := List.length_insertionSort (fun a b => key b ≤ key a) xs
        rw [hsx] at hl
        exact List.eq_nil_of_length_eq_zero hl.symm
      rw [hsx] at h
      simp only [List.orderedInsert] at h
      injection h with h1 h2
      subst h1
      subst hxs
      refine ⟨[], [], rfl, ?_, ?_⟩
      · intro y hy; simp at hy
      · intro y hy
        rcases List.mem_cons.1 hy with h3 | h3
        · subst h3; exact le_rfl
        · simp at h3
    | cons bh bt =>
      rw [hsx] at h
      simp only [List.orderedInsert] at h
      by_cases hr : key bh ≤ key x
      · rw [if_pos hr] at h
        injection h with h1 h2
        subst h1
        obtain ⟨xs1, xs2, hxeq, hlt, hle⟩ := ih bh bt (by rw [pySortDescBy]; exact hsx)
        refine ⟨[], xs, rfl, ?_, ?_⟩
        · intro y hy; simp at hy
        · intro y hy
          rcases List.mem_cons.1 hy with h3 | h3
          · subst h3; exact le_rfl
          · exact le_trans (hle y h3) hr
      · rw [if_neg hr] at h
        injection h with h1 h2
        subst h1
        obtain ⟨xs1, xs2, hxeq, hlt, hle⟩ := ih bh bt (by rw [pySortDescBy]; exact hsx)
        refine ⟨x :: xs1, xs2, ?_, ?_, ?_⟩
        · rw [List.cons_append, hxeq]
        · intro y hy
          rcases List.mem_cons.1 hy with h3 | h3
          · subst h3; exact not_le.1 hr
          · exact hlt y h3
        · intro y hy
          rcases List.mem_cons.1 hy with h3 | h3
          · subst h3; exact le_of_lt (not_le.1 hr)
          · exact hle y h3

theorem candidatesFor_congr_ids (ids1 ids2 : List ℤ)
    (h : ∀ i : ℤ, i ∈ ids1 ↔ i ∈ ids2) (pool : List Player) (fixtures : List Fixture)
    (gw : Option ℤ) (P : Player) (d : ℤ) :
    candidatesFor ids1 pool fixtures gw P d = candidatesFor ids2 pool fixtures gw P d := by
  rw [candidatesFor, candidatesFor]
  induction pool with
  | nil => rfl
  | cons c cs ih =>
    rw [List.filterMap_cons, List.filterMap_cons]
    have hiff : (c.element_type = P.element_type ∧ c.id ∉ ids1) ↔
        (c.element_type = P.element_type ∧ c.id ∉ ids2) := by
      constructor
      · rintro ⟨ha, hb⟩
        exact ⟨ha, fun hc2 => hb ((h c.id).mpr hc2)⟩
      · rintro ⟨ha, hb⟩
        exact ⟨ha, fun hc2 => hb ((h c.id).mp hc2)⟩
    have harg : (if c.element_type = P.element_type ∧ c.id ∉ ids1 then
        if c.now_cost ≤ P.now_cost ∧
            calculate_player_score P d <
              calculate_player_score c (get_player_fixture_difficulty c.team gw fixtures)
        then some (c,
          calculate_player_score c (get_player_fixture_difficulty c.team gw fixtures))
        else none
      else none) = (if c.element_type = P.element_type ∧ c.id ∉ ids2 then
        if c.now_cost ≤ P.now_cost ∧
            calculate_player_score P d <
              calculate_player_score c (get_player_fixture_difficulty c.team gw fixtures)
        then some (c,
          calculate_player_score c (get_player_fixture_difficulty c.team gw fixtures))
        else none
      else none) := if_congr hiff rfl rfl
    simp only [harg, ih]

/-- C2: every suggestion the transfer engine emits pairs an owned player
`P` (with its difficulty `d`) with an incoming candidate of the same
position, not in the owned id set, priced no higher than `P`, and with a
strictly higher fixture-adjusted score; the stored delta is the score
difference, and the chosen candidate is the single highest-scoring
qualifying candidate, ties resolved in favour of the candidate seen first
in pool iteration order (every earlier qualifying candidate scores
strictly lower, and no qualifying candidate scores higher). -/
theorem C2_transfer_suggestions
    (tp : List (Player × ℤ)) (pool : List Player) (fixtures : List Fixture) (gw : Option ℤ)
    (s : Suggestion) (hs : s ∈ (suggest_replacements tp pool fixtures gw).2) :
    ∃ P d, (P, d) ∈ tp ∧
      s.out_name = P.web_name ∧
      s.in_player.element_type = P.element_type ∧
      s.in_player.id ∉ ownedIdsOf tp ∧
      s.in_player.now_cost ≤ P.now_cost ∧
      calculate_player_score P d <
        calculate_player_score s.in_player
          (get_player_fixture_difficulty s.in_player.team gw fixtures) ∧
      s.score_gain =
        calculate_player_score s.in_player
          (get_player_fixture_difficulty s.in_player.team gw fixtures)
          - calculate_player_score P d ∧
      ∃ before after,
        candidatesFor (ownedIdsOf tp) pool fixtures gw P d =
          before ++ (s.in_player,
            calculate_player_score s.in_player
              (get_player_fixture_difficulty s.in_player.team gw fixtures)) :: after ∧
        (∀ y ∈ before,
          y.2 < calculate_player_score s.in_player
            (get_player_fixture_difficulty s.in_player.team gw fixtures)) ∧
        (∀ y ∈ candidatesFor (ownedIdsOf tp) pool fixtures gw P d,
          y.2 ≤ calculate_player_score s.in_player
            (get_player_fixture_difficulty s.in_player.team gw fixtures)) := by
  by_cases htp : tp = []
  · subst htp
    simp [suggest_replacements] at hs
  · rw [suggest_replacements, if_neg htp] at hs
    simp only at hs
    rcases List.mem_filterMap.1 hs with ⟨pd, hpd, hf⟩
    rw [pySortAscBy] at hpd
    have hpd_tp : pd ∈ tp :=
      (List.perm_insertionSort _ tp).mem_iff.1 hpd
    simp only [suggestFor] at hf
    have hids : candidatesFor
        (ownedIdsOf (pySortAscBy (fun pd => calculate_player_score pd.1 pd.2) tp))
        pool fixtures gw pd.1 pd.2 =
        candidatesFor (ownedIdsOf tp) pool fixtures gw pd.1 pd.2 := by
      apply candidatesFor_congr_ids
      intro i
      rw [ownedIdsOf, ownedIdsOf, pySortAscBy]
      exact ((List.perm_insertionSort
        (fun a b : Player × ℤ =>
          calculate_player_score a.1 a.2 ≤ calculate_player_score b.1 b.2) tp).map
        (fun pd => pd.1.id)).mem_iff
    rw [hids] at hf
    cases hmatch : pySortDescBy (fun c : Player × ℚ => c.2)
        (candidatesFor (ownedIdsOf tp) pool fixtures gw pd.1 pd.2) with
    | nil =>
      rw [hmatch] at hf
      simp at hf
    | cons best rest =>
      rw [hmatch] at hf
      obtain ⟨bp, bs⟩ := best
      simp only [Option.some.injEq] at hf
      subst hf
      obtain ⟨l1, l2, hsplit, hlt, hle⟩ :=
        pySortDescBy_head_split (fun c : Player × ℚ => c.2) _ _ _ hmatch
      have hmem : (bp, bs) ∈ candidatesFor (ownedIdsOf tp) pool fixtures gw pd.1 pd.2 := by
        rw [hsplit]
        exact List.mem_append.2 (Or.inr (List.mem_cons_self _ _))
      rw [candidatesFor] at hmem
      rcases List.mem_filterMap.1 hmem with ⟨c, hcpool, hcf⟩
      by_cases hc1 : c.element_type = pd.1.element_type ∧ c.id ∉ ownedIdsOf tp
      · rw [if_pos hc1] at hcf
        by_cases hc2 : c.now_cost ≤ pd.1.now_cost ∧
            calculate_player_score pd.1 pd.2 <
              calculate_player_score c (get_player_fixture_difficulty c.team gw fixtures)
        · rw [if_pos hc2] at hcf
          simp only [Option.some.injEq, Prod.mk.injEq] at hcf
          obtain ⟨hcb, hsb⟩ := hcf
          subst hcb
          subst hsb
          refine ⟨pd.1, pd.2, by simpa using hpd_tp, rfl, hc1.1, hc1.2, hc2.1, hc2.2,
            rfl, l1, l2, hsplit, hlt, hle⟩
        · rw [if_neg hc2] at hcf
          simp at hcf
      · rw [if_neg hc1] at hcf
        simp at hcf

/-- C2 witness: with one owned defender and a cheaper, higher-scoring
defender in the pool, the engine emits exactly the expected suggestion,
which satisfies every clause of the theorem. -/
theorem C2_witness :
    (⟨"Out", "In", pInW, 4⟩ : Suggestion) ∈
      (suggest_replacements [(pOutW, 3)] [pOutW, pInW] [] none).2 ∧
    ∃ P d, (P, d) ∈ [(pOutW, 3)] ∧
      (⟨"Out", "In", pInW, 4⟩ : Suggestion).out_name = P.web_name ∧
      (⟨"Out", "In", pInW, 4⟩ : Suggestion).in_player.element_type = P.element_type ∧
      (⟨"Out", "In", pInW, 4⟩ : Suggestion).in_player.id ∉ ownedIdsOf [(pOutW, 3)] ∧
      (⟨"Out", "In", pInW, 4⟩ : Suggestion).in_player.now_cost ≤ P.now_cost ∧
      calculate_player_score P d <
        calculate_player_score (⟨"Out", "In", pInW, 4⟩ : Suggestion).in_player
          (get_player_fixture_difficulty
            (⟨"Out", "In", pInW, 4⟩ : Suggestion).in_player.team none []) ∧
      (⟨"Out", "In", pInW, 4⟩ : Suggestion).score_gain =
        calculate_player_score (⟨"Out", "In", pInW, 4⟩ : Suggestion).in_player
          (get_player_fixture_difficulty
            (⟨"Out", "In", pInW, 4⟩ : Suggestion).in_player.team none [])
          - calculate_player_score P d ∧
      ∃ before after,
        candidatesFor (ownedIdsOf [(pOutW, 3)]) [pOutW, pInW] [] none P d =
          before ++ ((⟨"Out", "In", pInW, 4⟩ : Suggestion).in_player,
            calculate_player_score (⟨"Out", "In", pInW, 4⟩ : Suggestion).in_player
              (get_player_fixture_difficulty
                (⟨"Out", "In", pInW, 4⟩ : Suggestion).in_player.team none [])) :: after ∧
        (∀ y ∈ before,
          y.2 < calculate_player_score (⟨"Out", "In", pInW, 4⟩ : Suggestion).in_player
            (get_player_fixture_difficulty
              (⟨"Out", "In", pInW, 4⟩ : Suggestion).in_player.team none [])) ∧
        (∀ y ∈ candidatesFor (ownedIdsOf [(pOutW, 3)]) [pOutW, pInW] [] none P d,
          y.2 ≤ calculate_player_score (⟨"Out", "In", pInW, 4⟩ : Suggestion).in_player
            (get_player_fixture_difficulty
              (⟨"Out", "In", pInW, 4⟩ : Suggestion).in_player.team none [])) :=
  ⟨by with_unfolding_all decide,
   C2_transfer_suggestions [(pOutW, 3)] [pOutW, pInW] [] none
     (⟨"Out", "In", pInW, 4⟩ : Suggestion) (by with_unfolding_all decide)⟩
